import Mathlib

/-!
Verification of the asynchronous-process core of GitResultsManager
(the asyncproc part: `with_timeout`, class `Process`, class `ProcessManager`).

The Python code is shallowly embedded as pure Lean functions over an explicit
state record.  Interactions with the operating system (waitpid results, the
time a blocking call would take, signal delivery) are supplied as explicit
oracle parameters; exceptions become `Except`; the caller-side methods, whose
bodies run under the per-process mutex, become atomic state transformers.
All byte strings are modelled as `List Nat`.
-/

/-! ### Constants from the POSIX environment used by the code -/

def SIGTERM : Nat := 15

def SIGKILL : Nat := 9

/-- errno value raised by `Process.kill` when the exit status is cached. -/
def ECHILD : Nat := 10

/-! ### `with_timeout` (the deadline guard)

`with_timeout(timeout, func, ...)` arms a single process-wide SIGALRM for
`timeout` seconds (0 disarms), runs `func`, and translates the alarm into a
`Timeout` exception.  On entry it captures and disarms any pending outer alarm
(`oldalarm = signal.alarm(0)`), and on exit it restores it: if the outer
deadline already passed, it raises SIGALRM to the current process immediately,
otherwise it re-arms the alarm with the remaining seconds.

The model takes the captured outer alarm `oldalarm` and the wall-clock time
`runTime` the guarded call would need as oracle inputs, and returns the call
result together with the elapsed time and the effect applied to the outer
alarm on exit.  `duringAlarm` records the value the alarm slot holds while the
guarded call runs (the inner timeout; the outer alarm is disarmed). -/

inductive TimeoutResult (α : Type) where
  | ok (a : α)
  | timedOut
  deriving Repr, DecidableEq

inductive AlarmEffect where
  | none
  | rearm (seconds : Nat)
  | triggerNow
  deriving Repr, DecidableEq

structure WTResult (α : Type) where
  result : TimeoutResult α
  elapsed : Nat
  duringAlarm : Nat
  effect : AlarmEffect
  deriving Repr, DecidableEq

def with_timeout {α : Type} (timeout oldalarm runTime : Nat) (retval : α) :
    WTResult α :=
  let completes : Bool := timeout == 0 || runTime < timeout
  let elapsed : Nat := if completes then runTime else timeout
  { result := if completes then .ok retval else .timedOut
    elapsed := elapsed
    duringAlarm := timeout
    effect :=
      if oldalarm == 0 then .none
      else if oldalarm ≤ elapsed then .triggerNow
      else .rearm (oldalarm - elapsed) }

/-! ### The `Process` state

Fields mirror the attributes set in `Process.__init__`:
`stdinEnabled` stands for `self._process.stdin` being a pipe (likewise for
stdout/stderr), `pending_input`, `collected_outdata`, `collected_errdata`,
`exitstatus`, `inputsem` (the counting semaphore's value) and `quit`
correspond to the same-named attributes; `pid` is the OS process id. -/

structure Process where
  stdinEnabled : Bool
  stdoutEnabled : Bool
  stderrEnabled : Bool
  pid : Nat
  pending_input : List (List Nat)
  collected_outdata : List (List Nat)
  collected_errdata : List (List Nat)
  exitstatus : Option Nat
  inputsem : Nat
  quit : Bool
  deriving Repr, DecidableEq

/-- Errors raised by `Process` methods: `ValueError` from `write` on a
process without a stdin pipe, and `OSError(errno)` from `kill`. -/
inductive ProcErr where
  | invalidStream
  | osError (errno : Nat)
  deriving Repr, DecidableEq

/-- `os.WIFEXITED`: low seven bits of the status are zero. -/
def WIFEXITED (st : Nat) : Bool := st % 128 == 0

/-- `os.WIFSIGNALED`: the terminating signal field is in 1..126. -/
def WIFSIGNALED (st : Nat) : Bool := 0 < st % 128 && st % 128 < 127

/-- State effect of `Process.closeinput`: under the lock, set `self._quit`
and release the input semaphore.  (The Python method does this
unconditionally; it performs no stream check and never raises.) -/
def Process.closeinputState (s : Process) : Process :=
  { s with quit := true, inputsem := s.inputsem + 1 }

/-- `Process.closeinput` as called by the API.  The `Except` return mirrors
Python's ability to raise; this method's body has no raise path, so the
result is always `.ok`. -/
def Process.closeinput (s : Process) : Except ProcErr Process :=
  .ok s.closeinputState

/-- `Process.write(data)`: raises `ValueError` when stdin is not a pipe,
otherwise appends `data` to `self._pending_input` and releases the
semaphore. -/
def Process.write (s : Process) (data : List Nat) : Except ProcErr Process :=
  if s.stdinEnabled = false then .error .invalidStream
  else .ok { s with
    pending_input := s.pending_input ++ [data]
    inputsem := s.inputsem + 1 }

/-- `Process.read()`: join and clear `self._collected_outdata` under the
lock; returns the joined bytes and the new state. -/
def Process.read (s : Process) : List Nat × Process :=
  (s.collected_outdata.flatten, { s with collected_outdata := [] })

/-- `Process.readerr()`: join and clear `self._collected_errdata`. -/
def Process.readerr (s : Process) : List Nat × Process :=
  (s.collected_errdata.flatten, { s with collected_errdata := [] })

/-- `Process.readboth()`: join and clear both buffers in one critical
section. -/
def Process.readboth (s : Process) : (List Nat × List Nat) × Process :=
  ((s.collected_outdata.flatten, s.collected_errdata.flatten),
   { s with collected_outdata := [], collected_errdata := [] })

/-- `Process.kill(signal)`: raises `OSError(ECHILD)` when `self._exitstatus`
is already cached; otherwise calls `os.kill(self.pid(), signal)` — the `.ok`
payload records the (pid, signal) pair handed to the OS. -/
def Process.kill (s : Process) (sig : Nat) : Except ProcErr (Nat × Nat) :=
  if s.exitstatus.isSome then .error (.osError ECHILD)
  else .ok (s.pid, sig)

/-- Result of `Process.wait`: the returned value (`none` models Python's
`None` for a still-running process under `WNOHANG`), the state after the
call, and whether an OS-level `os.waitpid` was performed. -/
structure WaitRet where
  ret : Option Nat
  state : Process
  osWaited : Bool
  deriving Repr, DecidableEq

/-- `Process.wait(flags)`.  `nohang` models `flags & os.WNOHANG`; `osres`
is the oracle for `os.waitpid`: `none` stands for a `(0, _)` return (child
still running, only possible non-blocking), `some st` for `(pid, st)`.
When the exit status is already cached it is returned at once with no OS
call.  On observing an exited/signaled status the status is cached and, if
stdin is a pipe, `closeinput` is invoked to stop the feeder thread (the
reader-thread joins have no state effect in this model). -/
def Process.wait (s : Process) (nohang : Bool) (osres : Option Nat) :
    WaitRet :=
  match s.exitstatus with
  | some st => ⟨some st, s, false⟩
  | none =>
    match osres with
    | none => ⟨none, s, true⟩
    | some st =>
      if WIFEXITED st || WIFSIGNALED st then
        let s1 : Process := { s with exitstatus := some st }
        ⟨some st, if s.stdinEnabled then s1.closeinputState else s1, true⟩
      else ⟨some st, s, true⟩

/-! ### Operation steps on a `Process`

One constructor per state-touching action: the caller-facing methods plus
the two background contexts (`_reader` appending a chunk to a buffer,
`_feeder` consuming the oldest pending chunk or closing the stream). -/

inductive POp where
  | read
  | readerr
  | readboth
  | write (d : List Nat)
  | closeinput
  | kill (sig : Nat)
  | wait (nohang : Bool) (osres : Option Nat)
  | readerOut (d : List Nat)
  | readerErr (d : List Nat)
  | feeder
  deriving Repr, DecidableEq

def Process.pstep (s : Process) : POp → Process
  | .read => s.read.2
  | .readerr => s.readerr.2
  | .readboth => s.readboth.2
  | .write d => match s.write d with
    | .ok s1 => s1
    | .error _ => s
  | .closeinput => s.closeinputState
  | .kill _ => s
  | .wait nohang osres => (s.wait nohang osres).state
  | .readerOut d => { s with collected_outdata := s.collected_outdata ++ [d] }
  | .readerErr d => { s with collected_errdata := s.collected_errdata ++ [d] }
  | .feeder => match s.pending_input with
    | [] => s
    | _ :: rest => { s with pending_input := rest }

def Process.applyOps (s : Process) : List POp → Process
  | [] => s
  | op :: ops => (s.pstep op).applyOps ops

/-! ### `Process.terminate`

Three-stage escalation.  The OS behaviour is an oracle: `ti` is the time the
blocking `os.waitpid` at stage `i` would take until the child exits, and
`sti` the status it would deliver.  Stage 1 (only when stdin is a pipe)
closes stdin and waits under `with_timeout graceperiod`; stage 2 sends
SIGTERM and waits under the same guard; stage 3 sends SIGKILL and waits with
no guard.  `with_timeout` is entered with no pending outer alarm
(`oldalarm = 0`).  A cached exit status makes the stage's `wait` return
immediately (elapsed time 0). -/

structure TermOracle where
  t1 : Nat
  st1 : Nat
  t2 : Nat
  st2 : Nat
  t3 : Nat
  st3 : Nat
  deriving Repr, DecidableEq

/-- Outcome of `Process.terminate`: the value returned, the final process
state, the signals sent via `os.kill` in order, the seconds spent inside
deadline-guarded waits (`boundedWait`), the seconds spent in the final
unguarded wait (`unboundedWait`), and which stage returned. -/
structure TermResult where
  ret : Option Nat
  state : Process
  sigs : List Nat
  boundedWait : Nat
  unboundedWait : Nat
  stage : Nat
  deriving Repr, DecidableEq

/-- A blocking `self.wait()` together with the wall-clock time it needs:
zero when the status is already cached, otherwise the oracle time `t`. -/
def Process.waitTimed (s : Process) (t st : Nat) : Nat × WaitRet :=
  (if s.exitstatus.isSome then 0 else t, s.wait false (some st))

def Process.terminate (s : Process) (grace : Nat) (o : TermOracle) :
    Except ProcErr TermResult :=
  let stage1 : Option TermResult × Process × Nat :=
    if s.stdinEnabled then
      let s1 := s.closeinputState
      let tw := s1.waitTimed o.t1 o.st1
      let g := with_timeout grace 0 tw.1 tw.2
      match g.result with
      | .ok w => (some ⟨w.ret, w.state, [], g.elapsed, 0, 1⟩, s1, g.elapsed)
      | .timedOut => (none, s1, g.elapsed)
    else (none, s, 0)
  match stage1 with
  | (some r, _, _) => .ok r
  | (none, s1, b1) =>
    match s1.kill SIGTERM with
    | .error e => .error e
    | .ok _ =>
      let tw := s1.waitTimed o.t2 o.st2
      let g := with_timeout grace 0 tw.1 tw.2
      match g.result with
      | .ok w => .ok ⟨w.ret, w.state, [SIGTERM], b1 + g.elapsed, 0, 2⟩
      | .timedOut =>
        match s1.kill SIGKILL with
        | .error e => .error e
        | .ok _ =>
          let tw3 := s1.waitTimed o.t3 o.st3
          .ok ⟨tw3.2.ret, tw3.2.state, [SIGTERM, SIGKILL],
               b1 + g.elapsed, tw3.1, 3⟩

/-! ### `ProcessManager`

`__last_id` starts at 0 and is incremented before each insertion; `__procs`
maps ids to `Process` objects (modelled as an association list).  Every
accessor indexes `self.__procs[procid]`, so an unknown id raises `KeyError`,
modelled as `RegErr.keyError`. -/

structure PMState where
  last_id : Nat
  procs : List (Nat × Process)
  deriving Repr, DecidableEq

inductive RegErr where
  | keyError
  | procErr (e : ProcErr)
  deriving Repr, DecidableEq

def PMState.init : PMState := ⟨0, []⟩

/-- `ProcessManager.start`: spawn, increment `__last_id`, store, return the
new id.  The spawned `Process` is an oracle parameter. -/
def PMState.start (m : PMState) (p : Process) : Nat × PMState :=
  (m.last_id + 1, ⟨m.last_id + 1, (m.last_id + 1, p) :: m.procs⟩)

/-- Write back a mutated `Process` under its id (Python mutates the stored
object in place). -/
def PMState.update (m : PMState) (id : Nat) (p : Process) : PMState :=
  ⟨m.last_id, m.procs.map fun kv => if kv.1 = id then (id, p) else kv⟩

/-- `del self.__procs[procid]`. -/
def PMState.remove (m : PMState) (id : Nat) : PMState :=
  ⟨m.last_id, m.procs.filter fun kv => !(kv.1 == id)⟩

def PMState.kill (m : PMState) (id sig : Nat) : Except RegErr (Nat × Nat) :=
  match m.procs.lookup id with
  | none => .error .keyError
  | some p =>
    match p.kill sig with
    | .error e => .error (.procErr e)
    | .ok v => .ok v

def PMState.terminate (m : PMState) (id grace : Nat) (o : TermOracle) :
    Except RegErr (TermResult × PMState) :=
  match m.procs.lookup id with
  | none => .error .keyError
  | some p =>
    match p.terminate grace o with
    | .error e => .error (.procErr e)
    | .ok r => .ok (r, m.update id r.state)

def PMState.write (m : PMState) (id : Nat) (d : List Nat) :
    Except RegErr PMState :=
  match m.procs.lookup id with
  | none => .error .keyError
  | some p =>
    match p.write d with
    | .error e => .error (.procErr e)
    | .ok p1 => .ok (m.update id p1)

def PMState.closeinput (m : PMState) (id : Nat) : Except RegErr PMState :=
  match m.procs.lookup id with
  | none => .error .keyError
  | some p =>
    match p.closeinput with
    | .error e => .error (.procErr e)
    | .ok p1 => .ok (m.update id p1)

def PMState.read (m : PMState) (id : Nat) :
    Except RegErr (List Nat × PMState) :=
  match m.procs.lookup id with
  | none => .error .keyError
  | some p => .ok (p.read.1, m.update id p.read.2)

def PMState.readerr (m : PMState) (id : Nat) :
    Except RegErr (List Nat × PMState) :=
  match m.procs.lookup id with
  | none => .error .keyError
  | some p => .ok (p.readerr.1, m.update id p.readerr.2)

def PMState.readboth (m : PMState) (id : Nat) :
    Except RegErr ((List Nat × List Nat) × PMState) :=
  match m.procs.lookup id with
  | none => .error .keyError
  | some p => .ok (p.readboth.1, m.update id p.readboth.2)

def PMState.wait (m : PMState) (id : Nat) (nohang : Bool)
    (osres : Option Nat) : Except RegErr (Option Nat × PMState) :=
  match m.procs.lookup id with
  | none => .error .keyError
  | some p =>
    let w := p.wait nohang osres
    .ok (w.ret, m.update id w.state)

/-- `ProcessManager.reap`: non-blocking wait; if still running, SIGKILL;
blocking wait to collect the exit record; delete the entry.  `nb` is the
oracle for the non-blocking waitpid, `bl` for the blocking one. -/
def PMState.reap (m : PMState) (id : Nat) (nb : Option Nat) (bl : Nat) :
    Except RegErr PMState :=
  match m.procs.lookup id with
  | none => .error .keyError
  | some p =>
    let w1 := p.wait true nb
    let afterKill : Except ProcErr Process :=
      match w1.ret with
      | none =>
        match w1.state.kill SIGKILL with
        | .error e => .error e
        | .ok _ => .ok w1.state
      | some _ => .ok w1.state
    match afterKill with
    | .error e => .error (.procErr e)
    | .ok p1 =>
      let _w2 := p1.wait false (some bl)
      .ok (m.remove id)

/-! ### Traces of registry operations -/

inductive MOp where
  | start (p : Process)
  | kill (id sig : Nat)
  | terminate (id grace : Nat) (o : TermOracle)
  | write (id : Nat) (d : List Nat)
  | closeinput (id : Nat)
  | read (id : Nat)
  | readerr (id : Nat)
  | readboth (id : Nat)
  | wait (id : Nat) (nohang : Bool) (osres : Option Nat)
  | reap (id : Nat) (nb : Option Nat) (bl : Nat)
  deriving Repr, DecidableEq

/-- State transition of one registry call (an erroring call leaves the
registry unchanged). -/
def PMState.mstep (m : PMState) : MOp → PMState
  | .start p => (m.start p).2
  | .kill _ _ => m
  | .terminate id grace o =>
    match m.terminate id grace o with
    | .ok (_, m1) => m1
    | .error _ => m
  | .write id d =>
    match m.write id d with
    | .ok m1 => m1
    | .error _ => m
  | .closeinput id =>
    match m.closeinput id with
    | .ok m1 => m1
    | .error _ => m
  | .read id =>
    match m.read id with
    | .ok (_, m1) => m1
    | .error _ => m
  | .readerr id =>
    match m.readerr id with
    | .ok (_, m1) => m1
    | .error _ => m
  | .readboth id =>
    match m.readboth id with
    | .ok (_, m1) => m1
    | .error _ => m
  | .wait id nohang osres =>
    match m.wait id nohang osres with
    | .ok (_, m1) => m1
    | .error _ => m
  | .reap id nb bl =>
    match m.reap id nb bl with
    | .ok m1 => m1
    | .error _ => m

/-- Ids handed out by the `start` calls of a trace, in order. -/
def PMState.issuedIds (m : PMState) : List MOp → List Nat
  | [] => []
  | .start p :: ops => (m.start p).1 :: (m.start p).2.issuedIds ops
  | op :: ops => (m.mstep op).issuedIds ops

/-- Number of `start` operations in a trace. -/
def countStarts : List MOp → Nat
  | [] => 0
  | .start _ :: ops => countStarts ops + 1
  | _ :: ops => countStarts ops

/-! ### Concrete states used by witnesses and counterexamples -/

def procRunning : Process :=
  ⟨true, true, true, 100, [], [], [], none, 0, false⟩

def procDone : Process :=
  ⟨true, true, true, 100, [], [], [], some 0, 0, false⟩

def procNoStdin : Process :=
  ⟨false, true, true, 101, [], [], [], none, 0, false⟩

def procDoneNoStdin : Process :=
  ⟨false, true, true, 102, [], [], [], some 9, 0, false⟩

def oracleQuick : TermOracle := ⟨0, 0, 0, 0, 0, 0⟩

def oracleStubborn : TermOracle := ⟨5, 0, 5, 0, 7, 9⟩

/-! ### Helper lemmas -/

theorem with_timeout_zeroOld_of_lt {α : Type} (timeout runTime : Nat) (v : α)
    (hr : runTime < timeout) :
    with_timeout timeout 0 runTime v = ⟨.ok v, runTime, timeout, .none⟩ := by
  simp [with_timeout, hr]

theorem with_timeout_zeroOld_of_ge {α : Type} (timeout runTime : Nat) (v : α)
    (h1 : 1 ≤ timeout) (hr : timeout ≤ runTime) :
    with_timeout timeout 0 runTime v = ⟨.timedOut, timeout, timeout, .none⟩ := by
  have h0 : timeout ≠ 0 := by omega
  have h2 : ¬ runTime < timeout := by omega
  simp [with_timeout, h0, h2]

theorem Process.pstep_exitstatus (s : Process) (st : Nat)
    (h : s.exitstatus = some st) (op : POp) :
    (s.pstep op).exitstatus = some st := by
  cases op with
  | write d =>
    by_cases hs : s.stdinEnabled = false <;>
      simp [Process.pstep, Process.write, hs, h]
  | feeder =>
    rcases hp : s.pending_input with _ | ⟨d, rest⟩ <;>
      simp [Process.pstep, hp, h]
  | wait nohang osres =>
    simp [Process.pstep, Process.wait, h]
  | _ =>
    simp [Process.pstep, Process.read, Process.readerr, Process.readboth,
      Process.closeinputState, h]

theorem Process.applyOps_exitstatus (ops : List POp) :
    ∀ (s : Process) (st : Nat), s.exitstatus = some st →
      (s.applyOps ops).exitstatus = some st := by
  induction ops with
  | nil => intro s st h; exact h
  | cons op ops ih =>
    intro s st h
    exact ih _ _ (s.pstep_exitstatus st h op)

/-! ### The claims -/

/-- Claim C1: once an exit status has been cached, `wait()` is idempotent:
every later `wait` call, with any flags and after any sequence of
operations, returns the identical cached status without performing an
OS-level wait, and no operation changes the cached status. -/
theorem C1_exitstatus_immutable (s : Process) (st : Nat)
    (h : s.exitstatus = some st) :
    (∀ nohang osres, s.wait nohang osres = ⟨some st, s, false⟩) ∧
    (∀ ops, (s.applyOps ops).exitstatus = some st) ∧
    (∀ ops nohang osres,
      ((s.applyOps ops).wait nohang osres).ret = some st ∧
      ((s.applyOps ops).wait nohang osres).osWaited = false) := by
  refine ⟨?_, ?_, ?_⟩
  · intro nohang osres
    simp [Process.wait, h]
  · intro ops
    exact Process.applyOps_exitstatus ops s st h
  · intro ops nohang osres
    have h2 := Process.applyOps_exitstatus ops s st h
    constructor <;> simp [Process.wait, h2]

theorem C1_witness :
    procDone.wait true none = ⟨some 0, procDone, false⟩ ∧
    (procDone.applyOps [POp.read, POp.closeinput]).exitstatus = some 0 :=
  ⟨(C1_exitstatus_immutable procDone 0 rfl).1 true none,
   (C1_exitstatus_immutable procDone 0 rfl).2.1 [POp.read, POp.closeinput]⟩

/-- Claim C3: the deadline guard returns the function's value when it
completes within the timeout, raises Timeout otherwise (consuming exactly
`timeout` seconds); during the call the alarm slot holds the inner timeout
(the outer alarm captured on entry is disarmed); on exit an outer pending
alarm whose deadline elapsed during the call is triggered immediately,
otherwise it is rearmed with its remaining seconds. -/
theorem C3_with_timeout_contract {α : Type} (timeout oldalarm runTime : Nat)
    (v : α) (h : 0 < timeout) :
    (runTime < timeout →
      (with_timeout timeout oldalarm runTime v).result = .ok v) ∧
    (timeout ≤ runTime →
      (with_timeout timeout oldalarm runTime v).result = .timedOut ∧
      (with_timeout timeout oldalarm runTime v).elapsed = timeout) ∧
    (with_timeout timeout oldalarm runTime v).duringAlarm = timeout ∧
    (0 < oldalarm →
      (oldalarm ≤ (with_timeout timeout oldalarm runTime v).elapsed →
        (with_timeout timeout oldalarm runTime v).effect = .triggerNow) ∧
      ((with_timeout timeout oldalarm runTime v).elapsed < oldalarm →
        (with_timeout timeout oldalarm runTime v).effect =
          .rearm (oldalarm - (with_timeout timeout oldalarm runTime v).elapsed))) := by
  have h0 : timeout ≠ 0 := by omega
  refine ⟨?_, ?_, ?_, ?_⟩
  · intro hr
    simp [with_timeout, hr]
  · intro hr
    have h2 : ¬ runTime < timeout := by omega
    constructor <;> simp [with_timeout, h0, h2]
  · by_cases hr : runTime < timeout <;> simp [with_timeout, h0, hr]
  · intro ho
    have ho0 : oldalarm ≠ 0 := by omega
    constructor
    · intro hle
      by_cases hr : runTime < timeout <;>
        simp [with_timeout, h0, hr] at hle ⊢ <;> simp [hle, ho0] <;> omega
    · intro hlt
      by_cases hr : runTime < timeout <;>
        simp [with_timeout, h0, hr] at hlt ⊢ <;> simp [ho0] <;> omega

theorem C3_witness :
    ((with_timeout 5 0 2 (37 : Nat)).result = .ok 37) ∧
    ((with_timeout 5 4 9 (37 : Nat)).result = .timedOut ∧
      (with_timeout 5 4 9 (37 : Nat)).elapsed = 5) ∧
    ((with_timeout 5 4 9 (37 : Nat)).effect = .triggerNow) ∧
    ((with_timeout 5 9 2 (37 : Nat)).effect = .rearm 7) :=
  ⟨(C3_with_timeout_contract 5 0 2 37 (by decide)).1 (by decide),
   (C3_with_timeout_contract 5 4 9 37 (by decide)).2.1 (by decide),
   ((C3_with_timeout_contract 5 4 9 37 (by decide)).2.2.2 (by decide)).1
     (by decide),
   ((C3_with_timeout_contract 5 9 2 37 (by decide)).2.2.2 (by decide)).2
     (by decide)⟩

/-- Claim C10: a timeout of 0 disarms the alarm rather than arming an
immediate one, so the guarded call can never be interrupted: the function's
value is always returned, after the function's full running time. -/
theorem C10_zero_timeout_no_deadline {α : Type} (oldalarm runTime : Nat)
    (v : α) :
    (with_timeout 0 oldalarm runTime v).result = .ok v ∧
    (with_timeout 0 oldalarm runTime v).elapsed = runTime ∧
    (with_timeout 0 oldalarm runTime v).duringAlarm = 0 := by
  simp [with_timeout]

/-- Claim C4: each of `read`/`readerr`/`readboth` returns the concatenation
of the chunks accumulated in the relevant buffer(s), clears exactly those
buffers, and leaves every other field unchanged; chunks appended by the
reader context after a `read` are exactly what the next `read` returns. -/
theorem C4_read_snapshot_clear (s : Process) (ds : List (List Nat)) :
    s.read = (s.collected_outdata.flatten,
      { s with collected_outdata := [] }) ∧
    s.readerr = (s.collected_errdata.flatten,
      { s with collected_errdata := [] }) ∧
    s.readboth = ((s.collected_outdata.flatten, s.collected_errdata.flatten),
      { s with collected_outdata := [], collected_errdata := [] }) ∧
    (s.read.2.applyOps (ds.map POp.readerOut)).read.1 = ds.flatten := by
  refine ⟨rfl, rfl, rfl, ?_⟩
  have key : ∀ (t : Process) (ds : List (List Nat)),
      (t.applyOps (ds.map POp.readerOut)).collected_outdata =
        t.collected_outdata ++ ds := by
    intro t ds
    induction ds generalizing t with
    | nil => simp [Process.applyOps]
    | cons d ds ih => simp [Process.applyOps, Process.pstep, ih]
  simp [Process.read, key]

/-- Claim C5: `kill(signal)` hands the signal to the OS when no exit status
is cached; once the status is cached it raises `OSError` carrying the errno
`ECHILD` (the OS error code is surfaced, not swallowed). -/
theorem C5_kill (s : Process) (sig : Nat) :
    (s.exitstatus = none → s.kill sig = .ok (s.pid, sig)) ∧
    (∀ st, s.exitstatus = some st →
      s.kill sig = .error (.osError ECHILD)) := by
  constructor
  · intro h; simp [Process.kill, h]
  · intro st h; simp [Process.kill, h]

theorem C5_kill_witness :
    procRunning.kill SIGTERM = .ok (procRunning.pid, SIGTERM) ∧
    procDone.kill SIGTERM = .error (.osError ECHILD) :=
  ⟨(C5_kill procRunning SIGTERM).1 rfl, (C5_kill procDone SIGTERM).2 0 rfl⟩

/-- Claim C6 counterexample: `closeinput()` on a process built without a
stdin pipe does NOT fail with the InvalidStream error — the method performs
no stream check; it succeeds and sets the quit flag. -/
theorem C6_counterexample :
    procNoStdin.closeinput =
      .ok { procNoStdin with quit := true, inputsem := 1 } ∧
    procNoStdin.closeinput ≠ .error ProcErr.invalidStream :=
  ⟨rfl, fun hcontra => Except.noConfusion hcontra⟩

/-- Claim C6 (amended): `closeinput()` never raises, whether or not the
input stream is enabled; on every call it sets `quitRequested` and
increments the counting signal; a repeated call leaves the quit flag `true`
but increments the signal once more. -/
theorem C6_closeinput_amended (s : Process) :
    s.closeinput = .ok { s with quit := true, inputsem := s.inputsem + 1 } ∧
    s.closeinputState.closeinputState =
      { s with quit := true, inputsem := s.inputsem + 2 } :=
  ⟨rfl, rfl⟩

/-- Claim C7: `write(data)` raises InvalidStream when stdin is not a pipe;
otherwise it appends the chunk as the newest element of the pending queue,
increments the counting signal by one, and changes nothing else. -/
theorem C7_write (s : Process) (d : List Nat) :
    (s.stdinEnabled = false → s.write d = .error .invalidStream) ∧
    (s.stdinEnabled = true → s.write d = .ok { s with
      pending_input := s.pending_input ++ [d],
      inputsem := s.inputsem + 1 }) := by
  constructor
  · intro h; simp [Process.write, h]
  · intro h; simp [Process.write, h]

theorem C7_write_witness :
    procNoStdin.write [10] = .error .invalidStream ∧
    procRunning.write [10] = .ok { procRunning with
      pending_input := [[10]], inputsem := 1 } :=
  ⟨(C7_write procNoStdin [10]).1 rfl, (C7_write procRunning [10]).2 rfl⟩

/-! ### Evaluation lemmas for `Process.terminate` -/

theorem terminate_eval_cached_stdin (s : Process) (grace : Nat)
    (o : TermOracle) (e : Nat) (h : s.exitstatus = some e)
    (hs : s.stdinEnabled = true) (hg : 1 ≤ grace) :
    s.terminate grace o = .ok ⟨some e, s.closeinputState, [], 0, 0, 1⟩ := by
  have hc : s.closeinputState.exitstatus = some e := h
  have hw : s.closeinputState.wait false (some o.st1) =
      ⟨some e, s.closeinputState, false⟩ := by
    simp [Process.wait, hc]
  have hwt : s.closeinputState.waitTimed o.t1 o.st1 =
      (0, (⟨some e, s.closeinputState, false⟩ : WaitRet)) := by
    simp [Process.waitTimed, hc, hw]
  have hto := with_timeout_zeroOld_of_lt grace 0
    (⟨some e, s.closeinputState, false⟩ : WaitRet) hg
  simp [Process.terminate, hs, hwt, hto]

theorem terminate_eval_cached_nostdin (s : Process) (grace : Nat)
    (o : TermOracle) (e : Nat) (h : s.exitstatus = some e)
    (hs : s.stdinEnabled = false) :
    s.terminate grace o = .error (.osError ECHILD) := by
  have hk : s.kill SIGTERM = .error (.osError ECHILD) := by
    simp [Process.kill, h]
  simp [Process.terminate, hs, hk]

theorem terminate_eval_stage1 (s : Process) (grace : Nat) (o : TermOracle)
    (h : s.exitstatus = none) (hs : s.stdinEnabled = true)
    (h1 : o.t1 < grace) :
    s.terminate grace o =
      .ok ⟨(s.closeinputState.wait false (some o.st1)).ret,
           (s.closeinputState.wait false (some o.st1)).state,
           [], o.t1, 0, 1⟩ := by
  have hc : s.closeinputState.exitstatus = none := h
  have hwt : s.closeinputState.waitTimed o.t1 o.st1 =
      (o.t1, s.closeinputState.wait false (some o.st1)) := by
    simp [Process.waitTimed, hc]
  have hto := with_timeout_zeroOld_of_lt grace o.t1
    (s.closeinputState.wait false (some o.st1)) h1
  simp [Process.terminate, hs, hwt, hto]

theorem terminate_eval_stage2_stdin (s : Process) (grace : Nat)
    (o : TermOracle) (h : s.exitstatus = none) (hs : s.stdinEnabled = true)
    (hg : 1 ≤ grace) (h1 : grace ≤ o.t1) (h2 : o.t2 < grace) :
    s.terminate grace o =
      .ok ⟨(s.closeinputState.wait false (some o.st2)).ret,
           (s.closeinputState.wait false (some o.st2)).state,
           [SIGTERM], grace + o.t2, 0, 2⟩ := by
  have hc : s.closeinputState.exitstatus = none := h
  have hwt1 : s.closeinputState.waitTimed o.t1 o.st1 =
      (o.t1, s.closeinputState.wait false (some o.st1)) := by
    simp [Process.waitTimed, hc]
  have hto1 := with_timeout_zeroOld_of_ge grace o.t1
    (s.closeinputState.wait false (some o.st1)) hg h1
  have hk : s.closeinputState.kill SIGTERM =
      .ok (s.closeinputState.pid, SIGTERM) := by
    simp [Process.kill, hc]
  have hwt2 : s.closeinputState.waitTimed o.t2 o.st2 =
      (o.t2, s.closeinputState.wait false (some o.st2)) := by
    simp [Process.waitTimed, hc]
  have hto2 := with_timeout_zeroOld_of_lt grace o.t2
    (s.closeinputState.wait false (some o.st2)) h2
  simp [Process.terminate, hs, hwt1, hto1, hk, hwt2, hto2]

theorem terminate_eval_stage2_nostdin (s : Process) (grace : Nat)
    (o : TermOracle) (h : s.exitstatus = none) (hs : s.stdinEnabled = false)
    (h2 : o.t2 < grace) :
    s.terminate grace o =
      .ok ⟨(s.wait false (some o.st2)).ret, (s.wait false (some o.st2)).state,
           [SIGTERM], o.t2, 0, 2⟩ := by
  have hk : s.kill SIGTERM = .ok (s.pid, SIGTERM) := by
    simp [Process.kill, h]
  have hwt2 : s.waitTimed o.t2 o.st2 =
      (o.t2, s.wait false (some o.st2)) := by
    simp [Process.waitTimed, h]
  have hto2 := with_timeout_zeroOld_of_lt grace o.t2
    (s.wait false (some o.st2)) h2
  simp [Process.terminate, hs, hk, hwt2, hto2]

theorem terminate_eval_stage3_stdin (s : Process) (grace : Nat)
    (o : TermOracle) (h : s.exitstatus = none) (hs : s.stdinEnabled = true)
    (hg : 1 ≤ grace) (h1 : grace ≤ o.t1) (h2 : grace ≤ o.t2) :
    s.terminate grace o =
      .ok ⟨(s.closeinputState.wait false (some o.st3)).ret,
           (s.closeinputState.wait false (some o.st3)).state,
           [SIGTERM, SIGKILL], grace + grace, o.t3, 3⟩ := by
  have hc : s.closeinputState.exitstatus = none := h
  have hwt1 : s.closeinputState.waitTimed o.t1 o.st1 =
      (o.t1, s.closeinputState.wait false (some o.st1)) := by
    simp [Process.waitTimed, hc]
  have hto1 := with_timeout_zeroOld_of_ge grace o.t1
    (s.closeinputState.wait false (some o.st1)) hg h1
  have hk : s.closeinputState.kill SIGTERM =
      .ok (s.closeinputState.pid, SIGTERM) := by
    simp [Process.kill, hc]
  have hwt2 : s.closeinputState.waitTimed o.t2 o.st2 =
      (o.t2, s.closeinputState.wait false (some o.st2)) := by
    simp [Process.waitTimed, hc]
  have hto2 := with_timeout_zeroOld_of_ge grace o.t2
    (s.closeinputState.wait false (some o.st2)) hg h2
  have hk2 : s.closeinputState.kill SIGKILL =
      .ok (s.closeinputState.pid, SIGKILL) := by
    simp [Process.kill, hc]
  have hwt3 : s.closeinputState.waitTimed o.t3 o.st3 =
      (o.t3, s.closeinputState.wait false (some o.st3)) := by
    simp [Process.waitTimed, hc]
  simp [Process.terminate, hs, hwt1, hto1, hk, hwt2, hto2, hk2, hwt3]

theorem terminate_eval_stage3_nostdin (s : Process) (grace : Nat)
    (o : TermOracle) (h : s.exitstatus = none) (hs : s.stdinEnabled = false)
    (hg : 1 ≤ grace) (h2 : grace ≤ o.t2) :
    s.terminate grace o =
      .ok ⟨(s.wait false (some o.st3)).ret, (s.wait false (some o.st3)).state,
           [SIGTERM, SIGKILL], grace, o.t3, 3⟩ := by
  have hk : s.kill SIGTERM = .ok (s.pid, SIGTERM) := by
    simp [Process.kill, h]
  have hwt2 : s.waitTimed o.t2 o.st2 =
      (o.t2, s.wait false (some o.st2)) := by
    simp [Process.waitTimed, h]
  have hto2 := with_timeout_zeroOld_of_ge grace o.t2
    (s.wait false (some o.st2)) hg h2
  have hk2 : s.kill SIGKILL = .ok (s.pid, SIGKILL) := by
    simp [Process.kill, h]
  have hwt3 : s.waitTimed o.t3 o.st3 =
      (o.t3, s.wait false (some o.st3)) := by
    simp [Process.waitTimed, h]
  simp [Process.terminate, hs, hk, hwt2, hto2, hk2, hwt3]

/-- Claim C2: `terminate(graceperiod ≥ 1)` escalates through at most three
stages in order — close stdin (only when it is a pipe) and wait, SIGTERM and
wait, SIGKILL and wait — where the first two waits are bounded by the
deadline guard and the last is unbounded; it returns whatever the wait of
the stage at which the process exited returned, and the total time spent in
guard-bounded waits is at most `2 * graceperiod`. -/
theorem C2_terminate_escalation (s : Process) (grace : Nat) (o : TermOracle)
    (hg : 1 ≤ grace) :
    (∀ r, s.terminate grace o = .ok r →
      r.boundedWait ≤ 2 * grace ∧
      ((r.stage = 1 ∧ s.stdinEnabled = true ∧ r.sigs = []) ∨
       (r.stage = 2 ∧ r.sigs = [SIGTERM] ∧ r.unboundedWait = 0) ∨
       (r.stage = 3 ∧ r.sigs = [SIGTERM, SIGKILL]))) ∧
    (s.exitstatus = none →
      (s.stdinEnabled = true → o.t1 < grace →
        s.terminate grace o =
          .ok ⟨(s.closeinputState.wait false (some o.st1)).ret,
               (s.closeinputState.wait false (some o.st1)).state,
               [], o.t1, 0, 1⟩) ∧
      (s.stdinEnabled = true → grace ≤ o.t1 → o.t2 < grace →
        s.terminate grace o =
          .ok ⟨(s.closeinputState.wait false (some o.st2)).ret,
               (s.closeinputState.wait false (some o.st2)).state,
               [SIGTERM], grace + o.t2, 0, 2⟩) ∧
      (s.stdinEnabled = false → o.t2 < grace →
        s.terminate grace o =
          .ok ⟨(s.wait false (some o.st2)).ret,
               (s.wait false (some o.st2)).state,
               [SIGTERM], o.t2, 0, 2⟩) ∧
      (s.stdinEnabled = true → grace ≤ o.t1 → grace ≤ o.t2 →
        s.terminate grace o =
          .ok ⟨(s.closeinputState.wait false (some o.st3)).ret,
               (s.closeinputState.wait false (some o.st3)).state,
               [SIGTERM, SIGKILL], 2 * grace, o.t3, 3⟩) ∧
      (s.stdinEnabled = false → grace ≤ o.t2 →
        s.terminate grace o =
          .ok ⟨(s.wait false (some o.st3)).ret,
               (s.wait false (some o.st3)).state,
               [SIGTERM, SIGKILL], grace, o.t3, 3⟩)) := by
  constructor
  · intro r hr
    rcases hst : s.exitstatus with _ | e
    · by_cases hs : s.stdinEnabled = true
      · by_cases h1 : o.t1 < grace
        · rw [terminate_eval_stage1 s grace o hst hs h1] at hr
          simp only [Except.ok.injEq] at hr
          subst hr
          refine ⟨by simpa using by omega, Or.inl ⟨rfl, hs, rfl⟩⟩
        · have hge1 : grace ≤ o.t1 := by omega
          by_cases h2 : o.t2 < grace
          · rw [terminate_eval_stage2_stdin s grace o hst hs hg hge1 h2]
              at hr
            simp only [Except.ok.injEq] at hr
            subst hr
            exact ⟨by simpa using by omega, Or.inr (Or.inl ⟨rfl, rfl, rfl⟩)⟩
          · have hge2 : grace ≤ o.t2 := by omega
            rw [terminate_eval_stage3_stdin s grace o hst hs hg hge1 hge2]
              at hr
            simp only [Except.ok.injEq] at hr
            subst hr
            exact ⟨by simpa using by omega, Or.inr (Or.inr ⟨rfl, rfl⟩)⟩
      · have hs' : s.stdinEnabled = false := by simpa using hs
        by_cases h2 : o.t2 < grace
        · rw [terminate_eval_stage2_nostdin s grace o hst hs' h2] at hr
          simp only [Except.ok.injEq] at hr
          subst hr
          exact ⟨by simpa using by omega, Or.inr (Or.inl ⟨rfl, rfl, rfl⟩)⟩
        · have hge2 : grace ≤ o.t2 := by omega
          rw [terminate_eval_stage3_nostdin s grace o hst hs' hg hge2] at hr
          simp only [Except.ok.injEq] at hr
          subst hr
          exact ⟨by simpa using by omega, Or.inr (Or.inr ⟨rfl, rfl⟩)⟩
    · by_cases hs : s.stdinEnabled = true
      · rw [terminate_eval_cached_stdin s grace o e hst hs hg] at hr
        simp only [Except.ok.injEq] at hr
        subst hr
        exact ⟨by simpa using by omega, Or.inl ⟨rfl, hs, rfl⟩⟩
      · have hs' : s.stdinEnabled = false := by simpa using hs
        rw [terminate_eval_cached_nostdin s grace o e hst hs'] at hr
        exact absurd hr (by simp)
  · intro hrun
    refine ⟨?_, ?_, ?_, ?_, ?_⟩
    · intro hs h1
      exact terminate_eval_stage1 s grace o hrun hs h1
    · intro hs h1 h2
      exact terminate_eval_stage2_stdin s grace o hrun hs hg h1 h2
    · intro hs h2
      exact terminate_eval_stage2_nostdin s grace o hrun hs h2
    · intro hs h1 h2
      rw [two_mul]
      exact terminate_eval_stage3_stdin s grace o hrun hs hg h1 h2
    · intro hs h2
      exact terminate_eval_stage3_nostdin s grace o hrun hs hg h2

theorem C2_witness :
    procRunning.terminate 1 oracleStubborn =
      .ok ⟨(procRunning.closeinputState.wait false
              (some oracleStubborn.st3)).ret,
           (procRunning.closeinputState.wait false
              (some oracleStubborn.st3)).state,
           [SIGTERM, SIGKILL], 2 * 1, oracleStubborn.t3, 3⟩ :=
  (((C2_terminate_escalation procRunning 1 oracleStubborn
      (by decide)).2 rfl).2.2.2.1) rfl (by decide) (by decide)

/-- Claim C9: when the exit status is already cached, `terminate` returns
the cached status at stage 1 if stdin is a pipe (the stage-1 wait returns it
immediately), but raises the `OSError(ECHILD)` from `kill(SIGTERM)` if stdin
is not a pipe, since stage 1 is skipped and the signal cannot be sent. -/
theorem C9_terminate_on_cached (s : Process) (grace : Nat) (o : TermOracle)
    (st : Nat) (h : s.exitstatus = some st) (hg : 1 ≤ grace) :
    (s.stdinEnabled = true →
      s.terminate grace o = .ok ⟨some st, s.closeinputState, [], 0, 0, 1⟩) ∧
    (s.stdinEnabled = false →
      s.terminate grace o = .error (.osError ECHILD)) :=
  ⟨fun hs => terminate_eval_cached_stdin s grace o st h hs hg,
   fun hs => terminate_eval_cached_nostdin s grace o st h hs⟩

theorem C9_witness :
    procDone.terminate 1 oracleQuick =
      .ok ⟨some 0, procDone.closeinputState, [], 0, 0, 1⟩ ∧
    procDoneNoStdin.terminate 1 oracleQuick = .error (.osError ECHILD) :=
  ⟨(C9_terminate_on_cached procDone 1 oracleQuick 0 rfl (by decide)).1 rfl,
   (C9_terminate_on_cached procDoneNoStdin 1 oracleQuick 9 rfl
      (by decide)).2 rfl⟩

/-! ### Registry lemmas -/

theorem PMState.mstep_last_id (m : PMState) (op : MOp)
    (h : ∀ p, op ≠ MOp.start p) : (m.mstep op).last_id = m.last_id := by
  cases op with
  | start p => exact absurd rfl (h p)
  | kill id sig => rfl
  | terminate id grace o =>
    simp only [PMState.mstep, PMState.terminate]
    rcases hl : m.procs.lookup id with _ | p
    · simp [hl]
    · rcases ht : p.terminate grace o with e | r <;>
        simp [hl, ht, PMState.update]
  | write id d =>
    simp only [PMState.mstep, PMState.write]
    rcases hl : m.procs.lookup id with _ | p
    · simp [hl]
    · rcases hw : p.write d with e | p1 <;> simp [hl, hw, PMState.update]
  | closeinput id =>
    simp only [PMState.mstep, PMState.closeinput]
    rcases hl : m.procs.lookup id with _ | p
    · simp [hl]
    · simp [hl, Process.closeinput, PMState.update]
  | read id =>
    simp only [PMState.mstep, PMState.read]
    rcases hl : m.procs.lookup id with _ | p <;> simp [hl, PMState.update]
  | readerr id =>
    simp only [PMState.mstep, PMState.readerr]
    rcases hl : m.procs.lookup id with _ | p <;> simp [hl, PMState.update]
  | readboth id =>
    simp only [PMState.mstep, PMState.readboth]
    rcases hl : m.procs.lookup id with _ | p <;> simp [hl, PMState.update]
  | wait id nohang osres =>
    simp only [PMState.mstep, PMState.wait]
    rcases hl : m.procs.lookup id with _ | p <;> simp [hl, PMState.update]
  | reap id nb bl =>
    simp only [PMState.mstep, PMState.reap]
    rcases hl : m.procs.lookup id with _ | p
    · simp [hl]
    · rcases hw : (p.wait true nb).ret with _ | st
      · rcases hk : (p.wait true nb).state.kill SIGKILL with e | v <;>
          simp [hl, hw, hk, PMState.remove]
      · simp [hl, hw, PMState.remove]

theorem PMState.issuedIds_eq (ops : List MOp) :
    ∀ m : PMState,
      m.issuedIds ops = List.range' (m.last_id + 1) (countStarts ops) := by
  induction ops with
  | nil => intro m; rfl
  | cons op ops ih =>
    intro m
    cases op with
    | start p =>
      rw [show m.issuedIds (MOp.start p :: ops) =
          (m.start p).1 :: (m.start p).2.issuedIds ops from rfl, ih]
      simp [PMState.start, countStarts, List.range'_succ]
    | kill id sig =>
      rw [show m.issuedIds (MOp.kill id sig :: ops) =
          (m.mstep (MOp.kill id sig)).issuedIds ops from rfl, ih,
        PMState.mstep_last_id m (MOp.kill id sig)
          (fun p hc => MOp.noConfusion hc)]
      rfl
    | terminate id grace o =>
      rw [show m.issuedIds (MOp.terminate id grace o :: ops) =
          (m.mstep (MOp.terminate id grace o)).issuedIds ops from rfl, ih,
        PMState.mstep_last_id m (MOp.terminate id grace o)
          (fun p hc => MOp.noConfusion hc)]
      rfl
    | write id d =>
      rw [show m.issuedIds (MOp.write id d :: ops) =
          (m.mstep (MOp.write id d)).issuedIds ops from rfl, ih,
        PMState.mstep_last_id m (MOp.write id d)
          (fun p hc => MOp.noConfusion hc)]
      rfl
    | closeinput id =>
      rw [show m.issuedIds (MOp.closeinput id :: ops) =
          (m.mstep (MOp.closeinput id)).issuedIds ops from rfl, ih,
        PMState.mstep_last_id m (MOp.closeinput id)
          (fun p hc => MOp.noConfusion hc)]
      rfl
    | read id =>
      rw [show m.issuedIds (MOp.read id :: ops) =
          (m.mstep (MOp.read id)).issuedIds ops from rfl, ih,
        PMState.mstep_last_id m (MOp.read id)
          (fun p hc => MOp.noConfusion hc)]
      rfl
    | readerr id =>
      rw [show m.issuedIds (MOp.readerr id :: ops) =
          (m.mstep (MOp.readerr id)).issuedIds ops from rfl, ih,
        PMState.mstep_last_id m (MOp.readerr id)
          (fun p hc => MOp.noConfusion hc)]
      rfl
    | readboth id =>
      rw [show m.issuedIds (MOp.readboth id :: ops) =
          (m.mstep (MOp.readboth id)).issuedIds ops from rfl, ih,
        PMState.mstep_last_id m (MOp.readboth id)
          (fun p hc => MOp.noConfusion hc)]
      rfl
    | wait id nohang osres =>
      rw [show m.issuedIds (MOp.wait id nohang osres :: ops) =
          (m.mstep (MOp.wait id nohang osres)).issuedIds ops from rfl, ih,
        PMState.mstep_last_id m (MOp.wait id nohang osres)
          (fun p hc => MOp.noConfusion hc)]
      rfl
    | reap id nb bl =>
      rw [show m.issuedIds (MOp.reap id nb bl :: ops) =
          (m.mstep (MOp.reap id nb bl)).issuedIds ops from rfl, ih,
        PMState.mstep_last_id m (MOp.reap id nb bl)
          (fun p hc => MOp.noConfusion hc)]
      rfl

theorem lookup_filter_ne (l : List (Nat × Process)) (id : Nat) :
    (l.filter fun kv => !(kv.1 == id)).lookup id = none := by
  induction l with
  | nil => rfl
  | cons kv l ih =>
    obtain ⟨k, v⟩ := kv
    by_cases hk : k = id
    · simp [List.filter_cons, hk, ih]
    · have h1 : (k == id) = false := beq_eq_false_iff_ne.mpr hk
      have h2 : (id == k) = false :=
        beq_eq_false_iff_ne.mpr fun hc => hk hc.symm
      simp [List.filter_cons, h1, h2, List.lookup_cons, ih]

theorem PMState.remove_lookup (m : PMState) (id : Nat) :
    (m.remove id).procs.lookup id = none :=
  lookup_filter_ne m.procs id

theorem PMState.reap_ok (m : PMState) (id : Nat) (nb : Option Nat) (bl : Nat)
    (m1 : PMState) (h : m.reap id nb bl = .ok m1) : m1 = m.remove id := by
  simp only [PMState.reap] at h
  rcases hl : m.procs.lookup id with _ | p <;> simp only [hl] at h
  · exact Except.noConfusion h
  · rcases hw : (p.wait true nb).ret with _ | st <;> simp only [hw] at h
    · rcases hk : (p.wait true nb).state.kill SIGKILL with e | v <;>
        simp only [hk] at h
      · exact Except.noConfusion h
      · simp only [Except.ok.injEq] at h
        exact h.symm
    · simp only [Except.ok.injEq] at h
      exact h.symm

/-- Claim C8: `start()` yields the ids 1, 2, 3, ... in order across any
trace of registry operations (strictly increasing, never reused, unaffected
by intervening `reap`s), and every registry operation on an id with no
entry — unknown or already reaped — fails with the lookup (`KeyError`)
error; a successful `reap` removes its id. -/
theorem C8_registry (ops : List MOp) (m : PMState) (id sig grace : Nat)
    (d : List Nat) (nohang : Bool) (osres nb : Option Nat) (bl : Nat)
    (o : TermOracle) :
    PMState.init.issuedIds ops = List.range' 1 (countStarts ops) ∧
    (PMState.init.issuedIds ops).Pairwise (· < ·) ∧
    (m.procs.lookup id = none →
      m.kill id sig = .error .keyError ∧
      m.terminate id grace o = .error .keyError ∧
      m.write id d = .error .keyError ∧
      m.closeinput id = .error .keyError ∧
      m.read id = .error .keyError ∧
      m.readerr id = .error .keyError ∧
      m.readboth id = .error .keyError ∧
      m.wait id nohang osres = .error .keyError ∧
      m.reap id nb bl = .error .keyError) ∧
    (∀ m1, m.reap id nb bl = .ok m1 → m1.procs.lookup id = none) := by
  refine ⟨?_, ?_, ?_, ?_⟩
  · exact PMState.issuedIds_eq ops PMState.init
  · rw [PMState.issuedIds_eq ops PMState.init]
    exact List.pairwise_lt_range' 1 (countStarts ops)
  · intro h
    refine ⟨?_, ?_, ?_, ?_, ?_, ?_, ?_, ?_, ?_⟩ <;>
      simp [PMState.kill, PMState.terminate, PMState.write,
        PMState.closeinput, PMState.read, PMState.readerr, PMState.readboth,
        PMState.wait, PMState.reap, h]
  · intro m1 h
    rw [PMState.reap_ok m id nb bl m1 h]
    exact PMState.remove_lookup m id

theorem C8_witness :
    PMState.init.issuedIds
      [MOp.start procRunning, MOp.reap 1 (some 0) 0,
       MOp.start procRunning] = List.range' 1 2 ∧
    PMState.init.kill 3 SIGTERM = .error .keyError :=
  ⟨(C8_registry [MOp.start procRunning, MOp.reap 1 (some 0) 0,
      MOp.start procRunning] PMState.init 3 SIGTERM 1 [] false none none 0
      oracleQuick).1,
   ((C8_registry [MOp.start procRunning, MOp.reap 1 (some 0) 0,
      MOp.start procRunning] PMState.init 3 SIGTERM 1 [] false none none 0
      oracleQuick).2.2.1 rfl).1⟩
